import Mathlib

/-!
Verification development for the osx-cleaner repository.

The development shallowly embeds the cleanup pipeline of
src/core/cleaner.rs (the Cleaner trait default clean method, reached from
src/bin/osx.rs via osx::core::cleaner::clean_my_mac), the recursive size
measurer get_size of the same file, the uninstall flow of
src/core/uninstaller.rs, and remove_path of src/utils/filesystem.rs.

Modelling conventions:
- A filesystem path is its list of components (Rust Path components);
  PathBuf equality and Path starts_with become list equality and
  List.isPrefixOf, which is the component-prefix test Rust uses.
- Byte sizes are Nat.  The Rust code stores u64 sizes; all arithmetic the
  pipeline performs is addition of metadata lengths and saturating_sub,
  and no physically realisable filesystem approaches 2 ^ 64 bytes, so the
  embedding uses mathematical naturals.  saturating_sub is Nat.sub.
- Calls whose results depend on the ambient filesystem and OS
  (canonicalize, TMPDIR, exists, the two get_size call sites, remove_path)
  are fields of an environment record Env: each path is probed at most
  once and removed at most once per run, so one response function per
  call site loses no behaviour.
- The rayon parallel loops push into mutexed vectors; the embedding fixes
  one linearisation (list order).  All properties proved below are
  statements about membership, counts and sums, which are the same in
  every interleaving.
- Log lines are kept as structured data: table entries keep their exact
  reason strings, warning log lines are modelled by the Warning inductive
  (the emoji and colour markup of the Rust strings is presentation only).
-/

namespace OsxCleaner

/-- A filesystem path, as its list of components. -/
abbrev FilePath := List String

/-- The root temporary directory /private/tmp
    (src/core/cleaner.rs line 149). -/
def privateTmp : FilePath := ["private", "tmp"]

/-- Entry of the successful cleanup table (struct CleanupEntry,
    src/core/cleaner.rs lines 19-25).  The Rust struct stores the
    formatted size string; the embedding keeps the byte count that was
    formatted, which is also the amount added to total_freed. -/
structure CleanupEntry where
  path : FilePath
  sizeBytes : Nat
deriving DecidableEq

/-- Entry of the failed cleanup table (struct FailedEntry,
    src/core/cleaner.rs lines 28-34). -/
structure FailedEntry where
  path : FilePath
  error : String
deriving DecidableEq

/-- Entry of the skipped table (struct SkippedEntry,
    src/core/cleaner.rs lines 37-43). -/
structure SkippedEntry where
  path : FilePath
  reason : String
deriving DecidableEq

/-- A path that passed the first pass, with its measured size
    (struct PathToCheck, src/core/cleaner.rs lines 47-50). -/
structure PathToCheck where
  path : FilePath
  initial_size : Nat
deriving DecidableEq

/-- One warning_logs line of src/core/cleaner.rs, as structured data. -/
inductive Warning where
  /-- Line 165: path not found during the first pass. -/
  | notFound (p : FilePath)
  /-- Lines 172-175: empty path dropped during the first pass. -/
  | emptyPath (p : FilePath)
  /-- Lines 190-194: size check failed during the first pass. -/
  | sizeCheckFailed (p : FilePath) (err : String)
  /-- Lines 229-233: remove_path returned an error. -/
  | deleteFailed (p : FilePath) (err : String)
  /-- Lines 247-249: re-measurement after deletion freed nothing. -/
  | noSpaceFreed (p : FilePath)
  /-- Lines 253-258: re-measurement after deletion failed. -/
  | sizeAfterFailed (p : FilePath) (err : String)
deriving DecidableEq

/-- The shared mutable state of one cleanup run: the Arc Mutex vectors and
    the AtomicU64 threaded through Cleaner::clean
    (src/core/cleaner.rs lines 90-102 and clean_my_mac lines 467-477).
    deleteAttempts is a ghost field recording every path actually passed
    to remove_path; it witnesses which paths the run tried to mutate. -/
structure RunState where
  successful : List CleanupEntry
  failed : List FailedEntry
  skipped : List SkippedEntry
  warnings : List Warning
  checking : List FilePath
  wouldClean : List FilePath
  cleaning : List FilePath
  ignoredLog : List FilePath
  totalFreed : Nat
  deleteAttempts : List FilePath
deriving DecidableEq

/-- The empty initial state of clean_my_mac
    (src/core/cleaner.rs lines 467-477). -/
def initState : RunState :=
  { successful := [], failed := [], skipped := [], warnings := []
    checking := [], wouldClean := [], cleaning := [], ignoredLog := []
    totalFreed := 0, deleteAttempts := [] }

/-- Responses of the ambient filesystem and OS to the calls the pipeline
    makes.  Each candidate path is probed at most once and removed at most
    once in a run, so one response function per call site is a faithful
    oracle for one run. -/
structure Env where
  /-- Result of Path.canonicalize; none models an Err, in which case the
      code falls back to the original path (lines 112 and 116). -/
  canon : FilePath → Option FilePath
  /-- Value of the TMPDIR environment variable (line 141). -/
  tmpdir : Option FilePath
  /-- Result of path.exists() in the first pass (line 159). -/
  pathExists : FilePath → Bool
  /-- Result of get_size in the first pass (line 169). -/
  measure : FilePath → Except String Nat
  /-- Result of remove_path in the second pass (line 223). -/
  removeRes : FilePath → Except String Unit
  /-- Result of get_size after cleanup in the second pass (line 236). -/
  measureAfter : FilePath → Except String Nat

/-- canonicalize with fallback to the original path on error
    (src/core/cleaner.rs lines 112 and 116: canonicalize().unwrap_or_else). -/
def canonOr (e : Env) (p : FilePath) : FilePath :=
  (e.canon p).getD p

/-- The user ignore filter of src/core/cleaner.rs lines 111-122: a path is
    ignored when its canonical form equals, or extends as a descendant,
    the canonical form of some ignore pattern (Path starts_with is
    component-prefix containment, which includes equality). -/
def isIgnored (e : Env) (ignore : List FilePath) (p : FilePath) : Bool :=
  ignore.any fun ign =>
    canonOr e p == canonOr e ign || (canonOr e ign).isPrefixOf (canonOr e p)

/-- The hard safety exclusion of src/core/cleaner.rs line 149: the path is
    /private/tmp, or equals the active TMPDIR when that variable is set. -/
def isSafetyPath (e : Env) (p : FilePath) : Bool :=
  p == privateTmp ||
    (match e.tmpdir with
     | some tmp => p == tmp
     | none => false)

/-- One iteration of the first pass (src/core/cleaner.rs lines 146-197):
    safety-skip the active temporary directories, record a Failure for a
    vanished path, measure the rest, drop empty paths, skip measurement
    failures, and queue non-empty measured paths for the second pass. -/
def probeStep (e : Env) (acc : RunState × List PathToCheck) (p : FilePath) :
    RunState × List PathToCheck :=
  let (st, toCheck) := acc
  if isSafetyPath e p then
    ({ st with skipped :=
        st.skipped ++ [⟨p, "Active system temporary directory"⟩] }, toCheck)
  else
    let st := { st with checking := st.checking ++ [p] }
    if ¬ e.pathExists p then
      ({ st with failed := st.failed ++ [⟨p, "Not found"⟩]
                 warnings := st.warnings ++ [.notFound p] }, toCheck)
    else
      match e.measure p with
      | .ok sizeBefore =>
        if sizeBefore = 0 then
          ({ st with warnings := st.warnings ++ [.emptyPath p] }, toCheck)
        else
          (st, toCheck ++ [⟨p, sizeBefore⟩])
      | .error err =>
        ({ st with
            skipped := st.skipped ++ [⟨p, "Size check failed: " ++ err⟩]
            warnings := st.warnings ++ [.sizeCheckFailed p err] }, toCheck)

/-- One iteration of the second pass (src/core/cleaner.rs lines 200-266).
    In a dry run, a Success with the probed size is recorded and the
    filesystem is untouched.  In a live run the path is removed; a
    removal error records a Failure but does not stop the iteration,
    which continues with re-measurement: freed space records a Success,
    no freed space only logs a warning, and a re-measurement error
    records a Skip. -/
def actStep (e : Env) (dryRun : Bool) (st : RunState) (item : PathToCheck) :
    RunState :=
  if dryRun then
    { st with
        wouldClean := st.wouldClean ++ [item.path]
        successful := st.successful ++ [⟨item.path, item.initial_size⟩]
        totalFreed := st.totalFreed + item.initial_size }
  else
    let st := { st with
        cleaning := st.cleaning ++ [item.path]
        deleteAttempts := st.deleteAttempts ++ [item.path] }
    let st : RunState :=
      match e.removeRes item.path with
      | .ok _ => st
      | .error err =>
        { st with failed := st.failed ++ [⟨item.path, err⟩]
                  warnings := st.warnings ++ [.deleteFailed item.path err] }
    match e.measureAfter item.path with
    | .ok sizeAfter =>
      let freed := item.initial_size - sizeAfter
      if freed > 0 then
        { st with
            totalFreed := st.totalFreed + freed
            successful := st.successful ++ [⟨item.path, freed⟩] }
      else
        { st with warnings := st.warnings ++ [.noSpaceFreed item.path] }
    | .error err =>
      { st with
          warnings := st.warnings ++ [.sizeAfterFailed item.path err]
          skipped := st.skipped ++
            [⟨item.path, "Failed to get size after cleanup: " ++ err⟩] }

/-- The Cleaner trait default clean method of src/core/cleaner.rs lines
    90-270 for one category: partition the candidates by the user ignore
    filter, log the ignored ones, run the first pass over the rest, then
    run the second pass over the queued paths. -/
def clean (e : Env) (dryRun : Bool) (ignore : List FilePath)
    (initialPaths : List FilePath) (st0 : RunState) : RunState :=
  let toProcess := initialPaths.filter fun p => !(isIgnored e ignore p)
  let ignoredPaths := initialPaths.filter fun p => isIgnored e ignore p
  let st1 := { st0 with ignoredLog := st0.ignoredLog ++ ignoredPaths }
  let (st2, toCheck) := toProcess.foldl (probeStep e) (st1, [])
  toCheck.foldl (actStep e dryRun) st2

/-- clean_my_mac of src/core/cleaner.rs lines 461-604: the clean method of
    every category runs over the same shared state.  Each element of
    categoryPaths is the find_paths output of one cleaner. -/
def cleanMyMac (e : Env) (dryRun : Bool) (ignore : List FilePath)
    (categoryPaths : List (List FilePath)) : RunState :=
  categoryPaths.foldl (fun st paths => clean e dryRun ignore paths st) initState

/-! Derived per-path effect functions.  Each function below restates what
one iteration of a pass appends to one shared collection, so that the two
fold loops of clean can be characterised as flat concatenations.  They are
proof devices: the source of truth remains probeStep and actStep above,
and the lemmas probeStep_eq and actStep_eq prove the correspondence. -/

/-- Entries the first pass appends to the skipped table for candidate p. -/
def probeSkips (e : Env) (p : FilePath) : List SkippedEntry :=
  if isSafetyPath e p then [⟨p, "Active system temporary directory"⟩]
  else if ¬ e.pathExists p then []
  else
    match e.measure p with
    | .ok _ => []
    | .error err => [⟨p, "Size check failed: " ++ err⟩]

/-- Entries the first pass appends to the failed table for candidate p. -/
def probeFails (e : Env) (p : FilePath) : List FailedEntry :=
  if isSafetyPath e p then []
  else if ¬ e.pathExists p then [⟨p, "Not found"⟩]
  else []

/-- Warnings the first pass logs for candidate p. -/
def probeWarns (e : Env) (p : FilePath) : List Warning :=
  if isSafetyPath e p then []
  else if ¬ e.pathExists p then [.notFound p]
  else
    match e.measure p with
    | .ok n => if n = 0 then [.emptyPath p] else []
    | .error err => [.sizeCheckFailed p err]

/-- Checking log lines the first pass emits for candidate p. -/
def probeChecks (e : Env) (p : FilePath) : List FilePath :=
  if isSafetyPath e p then [] else [p]

/-- Whether candidate p survives the first pass and is queued for the
    second pass: not safety-excluded, existing, measurable, non-empty. -/
def probeKeeps (e : Env) (p : FilePath) : Bool :=
  !isSafetyPath e p && e.pathExists p &&
    (match e.measure p with
     | .ok n => decide (n ≠ 0)
     | .error _ => false)

/-- The size the first pass measured for p (0 when measurement failed,
    in which case the value is never used). -/
def measuredSize (e : Env) (p : FilePath) : Nat :=
  match e.measure p with
  | .ok n => n
  | .error _ => 0

/-- The PathToCheck queued for p when it survives the first pass. -/
def probeItems (e : Env) (p : FilePath) : List PathToCheck :=
  if probeKeeps e p then [⟨p, measuredSize e p⟩] else []

/-- Entries the second pass appends to the successful table for item it. -/
def actSuccesses (e : Env) (dryRun : Bool) (it : PathToCheck) :
    List CleanupEntry :=
  if dryRun then [⟨it.path, it.initial_size⟩]
  else
    match e.measureAfter it.path with
    | .ok sizeAfter =>
      if it.initial_size - sizeAfter > 0 then
        [⟨it.path, it.initial_size - sizeAfter⟩]
      else []
    | .error _ => []

/-- Entries the second pass appends to the failed table for item it. -/
def actFails (e : Env) (dryRun : Bool) (it : PathToCheck) : List FailedEntry :=
  if dryRun then []
  else
    match e.removeRes it.path with
    | .ok _ => []
    | .error err => [⟨it.path, err⟩]

/-- Entries the second pass appends to the skipped table for item it. -/
def actSkips (e : Env) (dryRun : Bool) (it : PathToCheck) : List SkippedEntry :=
  if dryRun then []
  else
    match e.measureAfter it.path with
    | .ok _ => []
    | .error err => [⟨it.path, "Failed to get size after cleanup: " ++ err⟩]

/-- Warnings the second pass logs for item it. -/
def actWarns (e : Env) (dryRun : Bool) (it : PathToCheck) : List Warning :=
  if dryRun then []
  else
    (match e.removeRes it.path with
     | .ok _ => []
     | .error err => [.deleteFailed it.path err]) ++
    (match e.measureAfter it.path with
     | .ok sizeAfter =>
       if it.initial_size - sizeAfter > 0 then [] else [.noSpaceFreed it.path]
     | .error err => [.sizeAfterFailed it.path err])

/-- Bytes the second pass adds to total_freed for item it.  In a live run
    with successful re-measurement this equals the saturating difference,
    also when it is 0 (then no Success entry is pushed and 0 is added). -/
def actFreed (e : Env) (dryRun : Bool) (it : PathToCheck) : Nat :=
  if dryRun then it.initial_size
  else
    match e.measureAfter it.path with
    | .ok sizeAfter => it.initial_size - sizeAfter
    | .error _ => 0

/-- Would-clean log lines the second pass emits for item it. -/
def actWould (dryRun : Bool) (it : PathToCheck) : List FilePath :=
  if dryRun then [it.path] else []

/-- Cleaning log lines, which coincide with the remove_path invocations,
    that the second pass emits for item it. -/
def actCleaning (dryRun : Bool) (it : PathToCheck) : List FilePath :=
  if dryRun then [] else [it.path]

/-- Characterisation of one first-pass iteration by the per-path effect
    functions. -/
theorem probeStep_eq (e : Env) (st : RunState) (toCheck : List PathToCheck)
    (p : FilePath) :
    probeStep e (st, toCheck) p =
      ({ st with
          skipped := st.skipped ++ probeSkips e p
          failed := st.failed ++ probeFails e p
          warnings := st.warnings ++ probeWarns e p
          checking := st.checking ++ probeChecks e p },
       toCheck ++ probeItems e p) := by
  unfold probeStep probeSkips probeFails probeWarns probeChecks probeItems
    probeKeeps measuredSize
  cases hS : isSafetyPath e p <;> cases hE : e.pathExists p <;>
    rcases hM : e.measure p with n | err <;> simp_all
  all_goals split <;> simp_all

/-- Characterisation of one second-pass iteration by the per-item effect
    functions. -/
theorem actStep_eq (e : Env) (dryRun : Bool) (st : RunState)
    (it : PathToCheck) :
    actStep e dryRun st it =
      { st with
          successful := st.successful ++ actSuccesses e dryRun it
          failed := st.failed ++ actFails e dryRun it
          skipped := st.skipped ++ actSkips e dryRun it
          warnings := st.warnings ++ actWarns e dryRun it
          wouldClean := st.wouldClean ++ actWould dryRun it
          cleaning := st.cleaning ++ actCleaning dryRun it
          deleteAttempts := st.deleteAttempts ++ actCleaning dryRun it
          totalFreed := st.totalFreed + actFreed e dryRun it } := by
  unfold actStep actSuccesses actFails actSkips actWarns actFreed actWould
    actCleaning
  cases dryRun <;>
    rcases hR : e.removeRes it.path with _ | rerr <;>
    rcases hM : e.measureAfter it.path with sizeAfter | merr <;>
    simp_all
  all_goals split <;> simp_all

/-- Characterisation of the whole first pass as flat concatenations of the
    per-path effects. -/
theorem probeFold_eq (e : Env) (l : List FilePath) :
    ∀ (st : RunState) (acc : List PathToCheck),
    l.foldl (probeStep e) (st, acc) =
      ({ st with
          skipped := st.skipped ++ l.flatMap (probeSkips e)
          failed := st.failed ++ l.flatMap (probeFails e)
          warnings := st.warnings ++ l.flatMap (probeWarns e)
          checking := st.checking ++ l.flatMap (probeChecks e) },
       acc ++ l.flatMap (probeItems e)) := by
  induction l with
  | nil => intro st acc; simp
  | cons p rest ih =>
    intro st acc
    simp only [List.foldl_cons, probeStep_eq, ih, List.flatMap_cons]
    simp [List.append_assoc]

/-- Characterisation of the whole second pass as flat concatenations of the
    per-item effects, with total_freed increasing by the sum of the freed
    amounts. -/
theorem actFold_eq (e : Env) (dryRun : Bool) (items : List PathToCheck) :
    ∀ st : RunState,
    items.foldl (actStep e dryRun) st =
      { st with
          successful := st.successful ++ items.flatMap (actSuccesses e dryRun)
          failed := st.failed ++ items.flatMap (actFails e dryRun)
          skipped := st.skipped ++ items.flatMap (actSkips e dryRun)
          warnings := st.warnings ++ items.flatMap (actWarns e dryRun)
          wouldClean := st.wouldClean ++ items.flatMap (actWould dryRun)
          cleaning := st.cleaning ++ items.flatMap (actCleaning dryRun)
          deleteAttempts :=
            st.deleteAttempts ++ items.flatMap (actCleaning dryRun)
          totalFreed :=
            st.totalFreed + (items.map (actFreed e dryRun)).sum } := by
  induction items with
  | nil => intro st; simp
  | cons it rest ih =>
    intro st
    simp only [List.foldl_cons, actStep_eq, ih, List.flatMap_cons, List.map_cons,
      List.sum_cons]
    simp [List.append_assoc, Nat.add_assoc]

/-- The candidates of one category that survive the user ignore filter. -/
def nonIgnored (e : Env) (ignore : List FilePath) (paths : List FilePath) :
    List FilePath :=
  paths.filter fun p => !(isIgnored e ignore p)

/-- The items queued for the second pass of one category run. -/
def keptItems (e : Env) (ignore : List FilePath) (paths : List FilePath) :
    List PathToCheck :=
  (nonIgnored e ignore paths).flatMap (probeItems e)

/-- Characterisation of one whole category run of the clean method by the
    per-path effect functions. -/
theorem clean_eq (e : Env) (dryRun : Bool) (ignore : List FilePath)
    (paths : List FilePath) (st0 : RunState) :
    clean e dryRun ignore paths st0 =
      { st0 with
          ignoredLog := st0.ignoredLog ++
            paths.filter (fun p => isIgnored e ignore p)
          checking := st0.checking ++
            (nonIgnored e ignore paths).flatMap (probeChecks e)
          skipped := st0.skipped ++
            (nonIgnored e ignore paths).flatMap (probeSkips e) ++
            (keptItems e ignore paths).flatMap (actSkips e dryRun)
          failed := st0.failed ++
            (nonIgnored e ignore paths).flatMap (probeFails e) ++
            (keptItems e ignore paths).flatMap (actFails e dryRun)
          warnings := st0.warnings ++
            (nonIgnored e ignore paths).flatMap (probeWarns e) ++
            (keptItems e ignore paths).flatMap (actWarns e dryRun)
          successful := st0.successful ++
            (keptItems e ignore paths).flatMap (actSuccesses e dryRun)
          wouldClean := st0.wouldClean ++
            (keptItems e ignore paths).flatMap (actWould dryRun)
          cleaning := st0.cleaning ++
            (keptItems e ignore paths).flatMap (actCleaning dryRun)
          deleteAttempts := st0.deleteAttempts ++
            (keptItems e ignore paths).flatMap (actCleaning dryRun)
          totalFreed := st0.totalFreed +
            ((keptItems e ignore paths).map (actFreed e dryRun)).sum } := by
  unfold clean nonIgnored keptItems
  simp only [probeFold_eq, actFold_eq]
  simp [nonIgnored]

/-! Outcome counting.  An Outcome of the data model is a row of the
successful, failed or skipped table; the functions below count the rows a
state holds for one path. -/

/-- Number of Success outcomes recorded for path q. -/
def successCount (st : RunState) (q : FilePath) : Nat :=
  st.successful.countP fun c => c.path == q

/-- Number of Failure outcomes recorded for path q. -/
def failCount (st : RunState) (q : FilePath) : Nat :=
  st.failed.countP fun c => c.path == q

/-- Number of Skip outcomes recorded for path q. -/
def skipCount (st : RunState) (q : FilePath) : Nat :=
  st.skipped.countP fun c => c.path == q

/-- Total number of outcomes (Success, Failure or Skip) recorded for q. -/
def outcomesFor (st : RunState) (q : FilePath) : Nat :=
  successCount st q + failCount st q + skipCount st q

theorem probeSkips_path (e : Env) (p : FilePath) :
    ∀ b ∈ probeSkips e p, b.path = p := by
  unfold probeSkips
  split <;> [skip; split] <;> try simp
  split <;> simp

theorem probeFails_path (e : Env) (p : FilePath) :
    ∀ b ∈ probeFails e p, b.path = p := by
  unfold probeFails
  split <;> [simp; split <;> simp]

theorem actSuccesses_path (e : Env) (dryRun : Bool) (it : PathToCheck) :
    ∀ b ∈ actSuccesses e dryRun it, b.path = it.path := by
  unfold actSuccesses
  split <;> try simp
  split <;> [split <;> simp; simp]

theorem actFails_path (e : Env) (dryRun : Bool) (it : PathToCheck) :
    ∀ b ∈ actFails e dryRun it, b.path = it.path := by
  unfold actFails
  split <;> [simp; split <;> simp]

theorem actSkips_path (e : Env) (dryRun : Bool) (it : PathToCheck) :
    ∀ b ∈ actSkips e dryRun it, b.path = it.path := by
  unfold actSkips
  split <;> [simp; split <;> simp]

theorem probeItems_mem (e : Env) (p : FilePath) (it : PathToCheck) :
    it ∈ probeItems e p → it = ⟨p, measuredSize e p⟩ ∧ probeKeeps e p = true := by
  unfold probeItems
  split <;> simp_all

/-- Counting entries of a flat concatenation when every producer emits
    entries keyed by its own path and all producers for the key q coincide. -/
theorem countP_flatMap_keyed {α β : Type} (l : List α) (F : α → List β)
    (prB : β → FilePath) (prA : α → FilePath) (q : FilePath) (itm : α)
    (h : ∀ a, ∀ b ∈ F a, prB b = prA a)
    (hitm : ∀ a ∈ l, prA a = q → F a = F itm) :
    ((l.flatMap F).countP fun b => prB b == q) =
      (l.countP fun a => prA a == q) * (F itm).length := by
  induction l with
  | nil => simp
  | cons a rest ih =>
    have hrest := fun a ha => hitm a (List.mem_cons_of_mem _ ha)
    simp only [List.flatMap_cons, List.countP_append, List.countP_cons,
      ih hrest]
    by_cases hq : prA a = q
    · have hFa : F a = F itm := hitm a (List.mem_cons_self a rest) hq
      have : (F a).countP (fun b => prB b == q) = (F a).length := by
        refine List.countP_eq_length.mpr fun b hb => ?_
        simp [h a b hb, hq]
      rw [this, hFa]
      simp [hq, Nat.add_mul]
      omega
    · have : (F a).countP (fun b => prB b == q) = 0 := by
        refine List.countP_eq_zero.mpr fun b hb => ?_
        simp [h a b hb, hq]
      simp [this, hq]

/-- Number of Success rows one surviving occurrence of q contributes. -/
def perPathSuccess (e : Env) (dryRun : Bool) (q : FilePath) : Nat :=
  if probeKeeps e q then
    (actSuccesses e dryRun ⟨q, measuredSize e q⟩).length
  else 0

/-- Number of Failure rows one surviving occurrence of q contributes. -/
def perPathFail (e : Env) (dryRun : Bool) (q : FilePath) : Nat :=
  (probeFails e q).length +
    if probeKeeps e q then
      (actFails e dryRun ⟨q, measuredSize e q⟩).length
    else 0

/-- Number of Skip rows one surviving occurrence of q contributes. -/
def perPathSkip (e : Env) (dryRun : Bool) (q : FilePath) : Nat :=
  (probeSkips e q).length +
    if probeKeeps e q then
      (actSkips e dryRun ⟨q, measuredSize e q⟩).length
    else 0

theorem keptItems_countP (e : Env) (ignore : List FilePath)
    (paths : List FilePath) (q : FilePath) :
    ((keptItems e ignore paths).countP fun it => it.path == q) =
      ((nonIgnored e ignore paths).countP fun p => p == q) *
        (probeItems e q).length := by
  unfold keptItems
  exact countP_flatMap_keyed _ _ PathToCheck.path id q q
    (fun a it hit => ((probeItems_mem e a it hit).1 ▸ rfl))
    (fun a _ ha => by rw [show id a = a from rfl] at ha; rw [ha])

theorem keptItems_mem (e : Env) (ignore paths : List FilePath)
    (it : PathToCheck) (h : it ∈ keptItems e ignore paths) :
    it = ⟨it.path, measuredSize e it.path⟩ ∧ probeKeeps e it.path = true := by
  unfold keptItems at h
  rcases List.mem_flatMap.mp h with ⟨p, _, hit⟩
  rcases probeItems_mem e p it hit with ⟨heq, hk⟩
  subst heq
  exact ⟨rfl, hk⟩

theorem probeItems_length (e : Env) (q : FilePath) :
    (probeItems e q).length = if probeKeeps e q then 1 else 0 := by
  unfold probeItems
  split <;> simp_all

/-- Run-level count of Success rows for one path. -/
theorem clean_successCount (e : Env) (dryRun : Bool)
    (ignore paths : List FilePath) (st0 : RunState) (q : FilePath) :
    successCount (clean e dryRun ignore paths st0) q =
      successCount st0 q +
        ((nonIgnored e ignore paths).countP fun p => p == q) *
          perPathSuccess e dryRun q := by
  rw [clean_eq]
  unfold successCount
  simp only [List.countP_append]
  have hkeyed :
      (((keptItems e ignore paths).flatMap (actSuccesses e dryRun)).countP
        fun b => b.path == q) =
      ((keptItems e ignore paths).countP fun it => it.path == q) *
        (actSuccesses e dryRun ⟨q, measuredSize e q⟩).length := by
    refine countP_flatMap_keyed _ _ CleanupEntry.path PathToCheck.path q
      ⟨q, measuredSize e q⟩ (actSuccesses_path e dryRun) ?_
    intro it hit hpq
    rcases keptItems_mem e ignore paths it hit with ⟨heq, _⟩
    rw [heq, hpq]
  rw [hkeyed, keptItems_countP, probeItems_length]
  unfold perPathSuccess
  split <;> simp [Nat.mul_assoc]

/-- Run-level count of Failure rows for one path. -/
theorem clean_failCount (e : Env) (dryRun : Bool)
    (ignore paths : List FilePath) (st0 : RunState) (q : FilePath) :
    failCount (clean e dryRun ignore paths st0) q =
      failCount st0 q +
        ((nonIgnored e ignore paths).countP fun p => p == q) *
          perPathFail e dryRun q := by
  rw [clean_eq]
  unfold failCount
  simp only [List.countP_append]
  have hprobe :
      (((nonIgnored e ignore paths).flatMap (probeFails e)).countP
        fun b => b.path == q) =
      ((nonIgnored e ignore paths).countP fun p => p == q) *
        (probeFails e q).length := by
    refine countP_flatMap_keyed _ _ FailedEntry.path id q q
      (probeFails_path e) ?_
    intro a _ ha
    rw [show id a = a from rfl] at ha; rw [ha]
  have hact :
      (((keptItems e ignore paths).flatMap (actFails e dryRun)).countP
        fun b => b.path == q) =
      ((keptItems e ignore paths).countP fun it => it.path == q) *
        (actFails e dryRun ⟨q, measuredSize e q⟩).length := by
    refine countP_flatMap_keyed _ _ FailedEntry.path PathToCheck.path q
      ⟨q, measuredSize e q⟩ (actFails_path e dryRun) ?_
    intro it hit hpq
    rcases keptItems_mem e ignore paths it hit with ⟨heq, _⟩
    rw [heq, hpq]
  rw [hprobe, hact, keptItems_countP, probeItems_length]
  unfold perPathFail
  split <;> simp [Nat.mul_add, Nat.mul_assoc, Nat.add_assoc]

/-- Run-level count of Skip rows for one path. -/
theorem clean_skipCount (e : Env) (dryRun : Bool)
    (ignore paths : List FilePath) (st0 : RunState) (q : FilePath) :
    skipCount (clean e dryRun ignore paths st0) q =
      skipCount st0 q +
        ((nonIgnored e ignore paths).countP fun p => p == q) *
          perPathSkip e dryRun q := by
  rw [clean_eq]
  unfold skipCount
  simp only [List.countP_append]
  have hprobe :
      (((nonIgnored e ignore paths).flatMap (probeSkips e)).countP
        fun b => b.path == q) =
      ((nonIgnored e ignore paths).countP fun p => p == q) *
        (probeSkips e q).length := by
    refine countP_flatMap_keyed _ _ SkippedEntry.path id q q
      (probeSkips_path e) ?_
    intro a _ ha
    rw [show id a = a from rfl] at ha; rw [ha]
  have hact :
      (((keptItems e ignore paths).flatMap (actSkips e dryRun)).countP
        fun b => b.path == q) =
      ((keptItems e ignore paths).countP fun it => it.path == q) *
        (actSkips e dryRun ⟨q, measuredSize e q⟩).length := by
    refine countP_flatMap_keyed _ _ SkippedEntry.path PathToCheck.path q
      ⟨q, measuredSize e q⟩ (actSkips_path e dryRun) ?_
    intro it hit hpq
    rcases keptItems_mem e ignore paths it hit with ⟨heq, _⟩
    rw [heq, hpq]
  rw [hprobe, hact, keptItems_countP, probeItems_length]
  unfold perPathSkip
  split <;> simp [Nat.mul_add, Nat.mul_assoc, Nat.add_assoc]

/-- Total outcome rows one surviving occurrence of q contributes. -/
def perPathOutcomes (e : Env) (dryRun : Bool) (q : FilePath) : Nat :=
  perPathSuccess e dryRun q + perPathFail e dryRun q + perPathSkip e dryRun q

/-- Run-level count of all outcome rows for one path. -/
theorem clean_outcomesFor (e : Env) (dryRun : Bool)
    (ignore paths : List FilePath) (st0 : RunState) (q : FilePath) :
    outcomesFor (clean e dryRun ignore paths st0) q =
      outcomesFor st0 q +
        ((nonIgnored e ignore paths).countP fun p => p == q) *
          perPathOutcomes e dryRun q := by
  unfold outcomesFor perPathOutcomes
  rw [clean_successCount, clean_failCount, clean_skipCount]
  ring

/-! Run Total accounting. -/

/-- The Run Total invariant: total_freed equals the sum of the byte
    amounts recorded in the Success rows. -/
def totalInvariant (st : RunState) : Prop :=
  st.totalFreed = (st.successful.map fun c => c.sizeBytes).sum

theorem actSuccesses_sum (e : Env) (dryRun : Bool) (it : PathToCheck) :
    ((actSuccesses e dryRun it).map fun c => c.sizeBytes).sum =
      actFreed e dryRun it := by
  unfold actSuccesses actFreed
  cases dryRun <;> simp
  rcases e.measureAfter it.path with n | err <;> simp
  split <;> simp_all

theorem sum_map_flatMap {α β : Type} (l : List α) (F : α → List β)
    (g : β → Nat) :
    ((l.flatMap F).map g).sum = (l.map fun a => ((F a).map g).sum).sum := by
  induction l <;> simp_all

theorem flatMap_singleton_eq_map {α β : Type} (l : List α) (f : α → β) :
    (l.flatMap fun a => [f a]) = l.map f := by
  induction l <;> simp_all

theorem clean_totalInvariant (e : Env) (dryRun : Bool)
    (ignore paths : List FilePath) (st0 : RunState)
    (h : totalInvariant st0) :
    totalInvariant (clean e dryRun ignore paths st0) := by
  unfold totalInvariant at *
  rw [clean_eq]
  simp only [List.map_append, List.sum_append, h, sum_map_flatMap]
  simp [actSuccesses_sum]

theorem clean_total_mono (e : Env) (dryRun : Bool)
    (ignore paths : List FilePath) (st0 : RunState) :
    st0.totalFreed ≤ (clean e dryRun ignore paths st0).totalFreed := by
  rw [clean_eq]
  exact Nat.le_add_right _ _

theorem cleanMyMac_totalInvariant (e : Env) (dryRun : Bool)
    (ignore : List FilePath) (categoryPaths : List (List FilePath)) :
    totalInvariant (cleanMyMac e dryRun ignore categoryPaths) := by
  unfold cleanMyMac
  have main : ∀ (cats : List (List FilePath)) (st0 : RunState),
      totalInvariant st0 →
      totalInvariant
        (cats.foldl (fun st paths => clean e dryRun ignore paths st) st0) := by
    intro cats
    induction cats with
    | nil => intro st0 h; simpa using h
    | cons c rest ih =>
      intro st0 h
      exact ih _ (clean_totalInvariant e dryRun ignore c st0 h)
  exact main categoryPaths initState (by simp [totalInvariant, initState])

/-- Claim C7: at every observation point after the Act phase of a category
    completes, the Run Total accumulator equals the sum of the bytes freed
    recorded in Success outcomes, and the accumulator never decreases at
    any step of the run (neither at a first-pass step, nor at a
    second-pass step, nor across a whole category). -/
theorem run_total_invariant_and_mono (e : Env) (dryRun : Bool)
    (ignore : List FilePath) (categoryPaths : List (List FilePath)) :
    totalInvariant (cleanMyMac e dryRun ignore categoryPaths) ∧
    (∀ paths st0, totalInvariant st0 →
        totalInvariant (clean e dryRun ignore paths st0)) ∧
    (∀ paths st0,
        st0.totalFreed ≤ (clean e dryRun ignore paths st0).totalFreed) ∧
    (∀ st toCheck p,
        st.totalFreed ≤ (probeStep e (st, toCheck) p).1.totalFreed) ∧
    (∀ st it, st.totalFreed ≤ (actStep e dryRun st it).totalFreed) := by
  refine ⟨cleanMyMac_totalInvariant e dryRun ignore categoryPaths,
    fun paths st0 h => clean_totalInvariant e dryRun ignore paths st0 h,
    fun paths st0 => clean_total_mono e dryRun ignore paths st0,
    fun st toCheck p => ?_, fun st it => ?_⟩
  · rw [probeStep_eq]
  · rw [actStep_eq]
    exact Nat.le_add_right _ _

/-- A concrete environment for witnesses: every path exists, measures
    3 bytes, and deletion succeeds with re-measured size 0. -/
def envAllOk : Env :=
  { canon := fun _ => none
    tmpdir := none
    pathExists := fun _ => true
    measure := fun _ => .ok 3
    removeRes := fun _ => .ok ()
    measureAfter := fun _ => .ok 0 }

/-- Witness for claim C7 at a concrete run. -/
theorem run_total_invariant_and_mono_witness :
    totalInvariant (cleanMyMac envAllOk true [] [[["a"]]]) ∧
    totalInvariant (clean envAllOk true [] [["a"]] initState) := by
  refine ⟨(run_total_invariant_and_mono envAllOk true [] [[["a"]]]).1, ?_⟩
  exact (run_total_invariant_and_mono envAllOk true [] [[["a"]]]).2.1 [["a"]]
    initState (by simp [totalInvariant, initState])

/-- Claim C4: in simulation mode the pipeline performs no delete attempt,
    records every probed path as a Success carrying its probed size, and
    its entire result depends only on the read-only view of the
    filesystem (canonicalisation, TMPDIR, existence, measurement): two
    simulation runs over an unchanged filesystem produce identical
    states, hence identical totals. -/
theorem dry_run_frame_and_idempotent (e₁ e₂ : Env)
    (hc : e₁.canon = e₂.canon) (ht : e₁.tmpdir = e₂.tmpdir)
    (hx : e₁.pathExists = e₂.pathExists) (hm : e₁.measure = e₂.measure)
    (ignore : List FilePath) (categoryPaths : List (List FilePath)) :
    (cleanMyMac e₁ true ignore categoryPaths).deleteAttempts = [] ∧
    (∀ paths st0, (clean e₁ true ignore paths st0).successful =
        st0.successful ++ (keptItems e₁ ignore paths).map
          fun it => ⟨it.path, it.initial_size⟩) ∧
    cleanMyMac e₁ true ignore categoryPaths =
      cleanMyMac e₂ true ignore categoryPaths := by
  obtain ⟨c₁, t₁, x₁, m₁, r₁, a₁⟩ := e₁
  obtain ⟨c₂, t₂, x₂, m₂, r₂, a₂⟩ := e₂
  cases hc; cases ht; cases hx; cases hm
  refine ⟨?_, ?_, rfl⟩
  · unfold cleanMyMac
    have main : ∀ (cats : List (List FilePath)) (st0 : RunState),
        st0.deleteAttempts = [] →
        (cats.foldl
            (fun st paths =>
              clean ⟨c₁, t₁, x₁, m₁, r₁, a₁⟩ true ignore paths st)
            st0).deleteAttempts = [] := by
      intro cats
      induction cats with
      | nil => intro st0 h; simpa using h
      | cons c rest ih =>
        intro st0 h
        refine ih _ ?_
        simp only [clean_eq, h]
        simp [actCleaning]
    exact main categoryPaths initState rfl
  · intro paths st0
    rw [clean_eq]
    have hfun : actSuccesses ⟨c₁, t₁, x₁, m₁, r₁, a₁⟩ true =
        fun it => [⟨it.path, it.initial_size⟩] := rfl
    rw [hfun, flatMap_singleton_eq_map]

/-- An environment agreeing with envAllOk on the read-only filesystem view
    but with different mutation responses, used to witness claim C4. -/
def envAllOkFailRemove : Env :=
  { canon := fun _ => none
    tmpdir := none
    pathExists := fun _ => true
    measure := fun _ => .ok 3
    removeRes := fun _ => .error "io"
    measureAfter := fun _ => .ok 3 }

/-- Witness for claim C4 at a concrete run. -/
theorem dry_run_frame_and_idempotent_witness :
    (cleanMyMac envAllOk true [] [[["a"]]]).deleteAttempts = [] ∧
    cleanMyMac envAllOk true [] [[["a"]]] =
      cleanMyMac envAllOkFailRemove true [] [[["a"]]] ∧
    (clean envAllOk true [] [["a"]] initState).successful =
      initState.successful ++ (keptItems envAllOk [] [["a"]]).map
        (fun it => ⟨it.path, it.initial_size⟩) := by
  have h := dry_run_frame_and_idempotent envAllOk envAllOkFailRemove
    rfl rfl rfl rfl [] [[["a"]]]
  exact ⟨h.1, h.2.2, h.2.1 [["a"]] initState⟩

/-! Embedding of remove_path from src/utils/filesystem.rs.  The
filesystem is a map from paths to the kind of object stored there (none
when the path does not exist), plus an oracle giving the OS error, if
any, that an attempted removal of a path would produce. -/

/-- The classification of a filesystem object that remove_path dispatches
    on (is_file, is_symlink, is_dir, or any other object). -/
inductive FileKind where
  | file
  | symlink
  | dir
  | other
deriving DecidableEq

/-- A filesystem for the removal model. -/
structure FileSystem where
  node : FilePath → Option FileKind
  removeErr : FilePath → Option String

/-- fs::remove_file (src/utils/filesystem.rs lines 71 and 80): erase the
    single node, or fail with the OS error. -/
def removeFileFS (fs : FileSystem) (p : FilePath) :
    Except String FileSystem :=
  match fs.removeErr p with
  | some err => .error err
  | none =>
    .ok { fs with node := fun q => if q = p then none else fs.node q }

/-- fs::remove_dir_all (src/utils/filesystem.rs line 75): erase the node
    and every descendant, or fail with the OS error. -/
def removeDirAllFS (fs : FileSystem) (p : FilePath) :
    Except String FileSystem :=
  match fs.removeErr p with
  | some err => .error err
  | none =>
    .ok { fs with node := fun q => if p.isPrefixOf q then none else fs.node q }

/-- remove_path of src/utils/filesystem.rs lines 50-87: a dry run changes
    nothing and succeeds; a nonexistent path changes nothing and succeeds;
    otherwise files and symlinks are removed with remove_file, directories
    with remove_dir_all, and any other object with remove_file. -/
def remove_path (fs : FileSystem) (p : FilePath) (dry_run : Bool) :
    Except String FileSystem :=
  if dry_run then .ok fs
  else
    match fs.node p with
    | none => .ok fs
    | some k =>
      if k = .file ∨ k = .symlink then removeFileFS fs p
      else if k = .dir then removeDirAllFS fs p
      else removeFileFS fs p

/-- Claim C10: remove_path in live mode on a path that does not exist
    returns Ok and leaves the filesystem exactly as it was; an absent
    path is success, not an error. -/
theorem remove_path_absent_is_ok (fs : FileSystem) (p : FilePath)
    (h : fs.node p = none) :
    remove_path fs p false = .ok fs := by
  unfold remove_path
  simp [h]

/-- A concrete empty filesystem for the claim C10 witness. -/
def emptyFS : FileSystem :=
  { node := fun _ => none, removeErr := fun _ => none }

/-- Witness for claim C10 at a concrete path. -/
theorem remove_path_absent_is_ok_witness :
    emptyFS.node ["gone"] = none ∧
    remove_path emptyFS ["gone"] false = .ok emptyFS :=
  ⟨rfl, remove_path_absent_is_ok emptyFS ["gone"] rfl⟩

/-! Embedding of the uninstall flow of src/core/uninstaller.rs lines
43-99.  Per path the flow emits log events; the run always returns Ok. -/

/-- One log event of the uninstall loop. -/
inductive UEvent where
  /-- Line 70: the candidate path does not exist. -/
  | notFound (p : FilePath)
  /-- Line 77: dry run, the path would be deleted. -/
  | wouldDelete (p : FilePath)
  /-- Line 80: live run, deletion of the path starts. -/
  | deleting (p : FilePath)
  /-- Lines 84-85: remove_path returned an error for the path. -/
  | deleteFailed (p : FilePath) (err : String)
deriving DecidableEq

/-- The path an uninstall event is about. -/
def UEvent.path : UEvent → FilePath
  | .notFound p => p
  | .wouldDelete p => p
  | .deleting p => p
  | .deleteFailed p _ => p

/-- Environment of one uninstall run: existence and removal responses. -/
structure UnEnv where
  pathExists : FilePath → Bool
  removeRes : FilePath → Except String Unit

/-- The body of the per-path loop of Uninstaller::uninstall
    (src/core/uninstaller.rs lines 63-91): skip nonexistent paths with a
    not-found warning, log a would-delete in a dry run, otherwise delete
    and log a failure without stopping. -/
def uninstallStep (e : UnEnv) (dry_run : Bool) (p : FilePath) : List UEvent :=
  if ¬ e.pathExists p then [.notFound p]
  else if dry_run then [.wouldDelete p]
  else
    match e.removeRes p with
    | .ok _ => [.deleting p]
    | .error err => [.deleting p, .deleteFailed p err]

/-- Uninstaller::uninstall (src/core/uninstaller.rs lines 43-99): process
    every related path independently and return Ok regardless of
    individual failures. -/
def uninstall (e : UnEnv) (dry_run : Bool) (paths : List FilePath) :
    List UEvent × Except String Unit :=
  (paths.flatMap (uninstallStep e dry_run), .ok ())

/-- Claim C8: during an uninstall run, a candidate path that does not
    exist yields a recorded not-found failure event for that specific
    path, every other candidate is still processed (each candidate
    produces at least one event), and the whole uninstall still returns
    success. -/
theorem uninstall_notfound_recorded (e : UnEnv) (dry_run : Bool)
    (paths : List FilePath) (p : FilePath)
    (hmem : p ∈ paths) (habs : e.pathExists p = false) :
    UEvent.notFound p ∈ (uninstall e dry_run paths).1 ∧
    (∀ q ∈ paths, ∃ ev ∈ (uninstall e dry_run paths).1, ev.path = q) ∧
    (uninstall e dry_run paths).2 = .ok () := by
  have hstep : ∀ q, ∃ ev ∈ uninstallStep e dry_run q, ev.path = q := by
    intro q
    unfold uninstallStep
    split
    · exact ⟨.notFound q, by simp, rfl⟩
    · split
      · exact ⟨.wouldDelete q, by simp, rfl⟩
      · rcases h : e.removeRes q with _ | err
        · exact ⟨.deleting q, by simp, rfl⟩
        · exact ⟨.deleting q, by simp, rfl⟩
  refine ⟨?_, ?_, rfl⟩
  · unfold uninstall
    refine List.mem_flatMap.mpr ⟨p, hmem, ?_⟩
    unfold uninstallStep
    simp [habs]
  · intro q hq
    rcases hstep q with ⟨ev, hev, hevq⟩
    exact ⟨ev, List.mem_flatMap.mpr ⟨q, hq, hev⟩, hevq⟩

/-- Environment for the claim C8 witness: one existing and one missing
    path. -/
def unEnvW : UnEnv :=
  { pathExists := fun p => p = ["Applications", "Bar.app"]
    removeRes := fun _ => .ok () }

/-- Witness for claim C8 at a concrete uninstall run. -/
theorem uninstall_notfound_recorded_witness :
    (["Applications", "Foo.app"] : FilePath) ∈
      [["Applications", "Foo.app"], ["Applications", "Bar.app"]] ∧
    unEnvW.pathExists ["Applications", "Foo.app"] = false ∧
    (UEvent.notFound ["Applications", "Foo.app"] ∈
      (uninstall unEnvW false
        [["Applications", "Foo.app"], ["Applications", "Bar.app"]]).1 ∧
     (∀ q ∈ [["Applications", "Foo.app"], ["Applications", "Bar.app"]],
        ∃ ev ∈ (uninstall unEnvW false
          [["Applications", "Foo.app"], ["Applications", "Bar.app"]]).1,
          ev.path = q) ∧
     (uninstall unEnvW false
        [["Applications", "Foo.app"], ["Applications", "Bar.app"]]).2 =
       .ok ()) :=
  ⟨by decide, by decide,
    uninstall_notfound_recorded unEnvW false
      [["Applications", "Foo.app"], ["Applications", "Bar.app"]]
      ["Applications", "Foo.app"] (by decide) (by decide)⟩

/-! Structural embedding of get_size (src/core/cleaner.rs lines 274-325).
A node records how the two metadata calls and read_dir respond for one
filesystem object: absent models exists() returning false (line 279-281),
badNode models exists() true but symlink_metadata or read_dir failing for
the node itself (the question-mark operators on lines 283 and 290), file
and symlink return their metadata length (lines 285-287), and dir holds
the read_dir listing, in which consBad models an Err item of the
read_dir iterator (lines 310-321). -/

mutual

/-- One filesystem object as get_size observes it. -/
inductive FsNode where
  | file (sz : Nat)
  | symlink (sz : Nat)
  | absent
  | badNode (err : String)
  | dir (entries : EntList)

/-- The listing read_dir yields for a directory. -/
inductive EntList where
  | nil
  | consEnt (name : String) (child : FsNode) (rest : EntList)
  | consBad (err : String) (rest : EntList)

end

mutual

/-- get_size of src/core/cleaner.rs lines 274-325 on one node: the size
    result together with the SkippedEntry rows pushed while measuring. -/
def getSizeNode : FsNode → FilePath → Except String Nat × List SkippedEntry
  | .absent, _ => (.ok 0, [])
  | .badNode err, _ => (.error err, [])
  | .file sz, _ => (.ok sz, [])
  | .symlink sz, _ => (.ok sz, [])
  | .dir es, p =>
    let r := getSizeEnts es p
    (.ok r.1, r.2)

/-- The read_dir loop of get_size (src/core/cleaner.rs lines 290-323):
    an Ok entry is measured recursively, a recursive error records an
    Unreadable-entry Skip for the child path and is excluded from the
    sum, and an Err iterator item records a Skip for the parent path. -/
def getSizeEnts : EntList → FilePath → Nat × List SkippedEntry
  | .nil, _ => (0, [])
  | .consEnt name child rest, p =>
    let rc := getSizeNode child (p ++ [name])
    let rr := getSizeEnts rest p
    match rc.1 with
    | .ok s => (s + rr.1, rc.2 ++ rr.2)
    | .error err =>
      (rr.1, rc.2 ++ [⟨p ++ [name], "Unreadable entry: " ++ err⟩] ++ rr.2)
  | .consBad err rest, p =>
    let rr := getSizeEnts rest p
    (rr.1, ⟨p, "Unreadable directory entry: " ++ err⟩ :: rr.2)

end

/-- Spec-side description of the sum get_size returns for a directory: the
    sizes of the children whose own measurement succeeds, the unreadable
    ones excluded. -/
def specReadableSum : EntList → FilePath → Nat
  | .nil, _ => 0
  | .consEnt name child rest, p =>
    (match (getSizeNode child (p ++ [name])).1 with
     | .ok s => s
     | .error _ => 0) + specReadableSum rest p
  | .consBad _ rest, p => specReadableSum rest p

/-- Whether a node is one whose metadata read fails with the given error. -/
def isBadNodeWith : FsNode → String → Bool
  | .badNode err, e => err == e
  | _, _ => false

/-- Whether the listing contains a child of the given name whose metadata
    read fails with the given error. -/
def containsBadMeta : EntList → String → String → Bool
  | .nil, _, _ => false
  | .consEnt name child rest, n, e =>
    (name == n && isBadNodeWith child e) || containsBadMeta rest n e
  | .consBad _ rest, n, e => containsBadMeta rest n e

theorem isBadNodeWith_eq (child : FsNode) (e : String)
    (h : isBadNodeWith child e = true) : child = .badNode e := by
  cases child with
  | badNode err => simp [isBadNodeWith] at h; rw [h]
  | file sz => simp [isBadNodeWith] at h
  | symlink sz => simp [isBadNodeWith] at h
  | absent => simp [isBadNodeWith] at h
  | dir es => simp [isBadNodeWith] at h

theorem getSizeEnts_fst : ∀ (es : EntList) (p : FilePath),
    (getSizeEnts es p).1 = specReadableSum es p
  | .nil, _ => rfl
  | .consEnt name child rest, p => by
    rw [getSizeEnts, specReadableSum]
    rcases h : (getSizeNode child (p ++ [name])).1 with s | err <;>
      simp [h, getSizeEnts_fst rest p]
  | .consBad err rest, p => by
    rw [getSizeEnts, specReadableSum]
    simp [getSizeEnts_fst rest p]

theorem getSizeEnts_badMeta_skip : ∀ (es : EntList) (p : FilePath)
    (name err : String), containsBadMeta es name err = true →
    (⟨p ++ [name], "Unreadable entry: " ++ err⟩ : SkippedEntry) ∈
      (getSizeEnts es p).2
  | .nil, _, _, _, h => by simp [containsBadMeta] at h
  | .consEnt nm child rest, p, name, err, h => by
    rw [containsBadMeta] at h
    rw [getSizeEnts]
    rcases Bool.or_eq_true_iff.mp h with hhead | htail
    · rcases Bool.and_eq_true_iff.mp hhead with ⟨hn, hc⟩
      have hnm : nm = name := by simpa using hn
      have hchild := isBadNodeWith_eq child err hc
      subst hnm
      rw [hchild]
      simp [getSizeNode]
    · have ih := getSizeEnts_badMeta_skip rest p name err htail
      rcases hc : (getSizeNode child (p ++ [nm])).1 with s | e <;>
        simp [hc, ih]
  | .consBad e rest, p, name, err, h => by
    rw [containsBadMeta] at h
    rw [getSizeEnts]
    exact List.mem_cons_of_mem _ (getSizeEnts_badMeta_skip rest p name err h)

/-- Claim C9: when a directory listing contains a child whose metadata
    cannot be read, measuring the directory still completes without error
    and returns the sum of the sizes of the readable children, while the
    unreadable child is recorded as a Skip under the child path. -/
theorem get_size_tolerates_unreadable_children (es : EntList) (p : FilePath)
    (name err : String) (h : containsBadMeta es name err = true) :
    (getSizeNode (.dir es) p).1 = .ok (specReadableSum es p) ∧
    (⟨p ++ [name], "Unreadable entry: " ++ err⟩ : SkippedEntry) ∈
      (getSizeNode (.dir es) p).2 := by
  constructor
  · rw [getSizeNode]
    simp [getSizeEnts_fst]
  · rw [getSizeNode]
    simpa using getSizeEnts_badMeta_skip es p name err h

/-- A concrete directory for the claim C9 witness: a readable 5-byte
    file, a child with unreadable metadata, and a readable 7-byte file. -/
def dirWithBadChild : EntList :=
  .consEnt "a.log" (.file 5)
    (.consEnt "locked" (.badNode "permission denied")
      (.consEnt "b.log" (.file 7) .nil))

/-- Witness for claim C9 at a concrete directory. -/
theorem get_size_tolerates_unreadable_children_witness :
    containsBadMeta dirWithBadChild "locked" "permission denied" = true ∧
    ((getSizeNode (.dir dirWithBadChild) ["tmp"]).1 =
        .ok (specReadableSum dirWithBadChild ["tmp"]) ∧
      (⟨["tmp", "locked"], "Unreadable entry: " ++ "permission denied"⟩ :
          SkippedEntry) ∈ (getSizeNode (.dir dirWithBadChild) ["tmp"]).2) :=
  ⟨by decide,
    get_size_tolerates_unreadable_children dirWithBadChild ["tmp"]
      "locked" "permission denied" (by decide)⟩

/-! Helper lemmas shared by the claim theorems below. -/

theorem probeKeeps_iff (e : Env) (p : FilePath) :
    probeKeeps e p = true ↔
      isSafetyPath e p = false ∧ e.pathExists p = true ∧
        ∃ n, e.measure p = .ok n ∧ n ≠ 0 := by
  unfold probeKeeps
  rcases h : e.measure p with n | err <;>
    simp [h, Bool.and_eq_true, Bool.not_eq_true', and_assoc]

theorem keptItems_path_mem (e : Env) (ignore paths : List FilePath)
    (it : PathToCheck) (h : it ∈ keptItems e ignore paths) :
    it.path ∈ nonIgnored e ignore paths := by
  unfold keptItems at h
  rcases List.mem_flatMap.mp h with ⟨q, hq, hit⟩
  rcases probeItems_mem e q it hit with ⟨heq, _⟩
  rw [heq]
  exact hq

theorem clean_deleteAttempts_mem (e : Env) (dryRun : Bool)
    (ignore paths : List FilePath) (p : FilePath)
    (h : p ∈ (clean e dryRun ignore paths initState).deleteAttempts) :
    probeKeeps e p = true ∧ isIgnored e ignore p = false := by
  rw [clean_eq] at h
  simp only [initState, List.nil_append] at h
  rcases List.mem_flatMap.mp h with ⟨it, hit, hcl⟩
  unfold actCleaning at hcl
  have hpath : it.path = p := by
    rcases dryRun <;> simp at hcl
    exact hcl.symm
  rcases keptItems_mem e ignore paths it hit with ⟨_, hk⟩
  have hmem := keptItems_path_mem e ignore paths it hit
  rw [hpath] at hk hmem
  unfold nonIgnored at hmem
  have := (List.mem_filter.mp hmem).2
  exact ⟨hk, by simpa using this⟩

theorem nonIgnored_countP_eq_zero (e : Env) (ignore paths : List FilePath)
    (p : FilePath) (hig : isIgnored e ignore p = true) :
    ((nonIgnored e ignore paths).countP fun q => q == p) = 0 := by
  refine List.countP_eq_zero.mpr fun q hq => ?_
  unfold nonIgnored at hq
  have hqn := (List.mem_filter.mp hq).2
  simp only [beq_iff_eq]
  intro hqp
  rw [hqp] at hqn
  rw [hig] at hqn
  simp at hqn

/-- Claim C5: a candidate is excluded before the Probe phase exactly when
    its canonical form (falling back to the literal path when
    canonicalisation fails) equals, or descends from by component-prefix
    containment, the canonical form of some ignore pattern; every
    excluded candidate lands in the ignored-paths log — as many times as
    it occurs among the candidates, so once for a single occurrence — and
    it produces no Probe or Act outcome and no delete attempt. -/
theorem ignore_filter_spec (e : Env) (dryRun : Bool)
    (ignore paths : List FilePath) (p : FilePath) (hmem : p ∈ paths)
    (hig : isIgnored e ignore p = true) :
    (∀ q, isIgnored e ignore q = true ↔
      ∃ ig ∈ ignore, canonOr e q = canonOr e ig ∨
        (canonOr e ig).isPrefixOf (canonOr e q) = true) ∧
    p ∈ (clean e dryRun ignore paths initState).ignoredLog ∧
    (clean e dryRun ignore paths initState).ignoredLog.count p =
      paths.count p ∧
    outcomesFor (clean e dryRun ignore paths initState) p = 0 ∧
    p ∉ (clean e dryRun ignore paths initState).deleteAttempts := by
  refine ⟨?_, ?_, ?_, ?_, ?_⟩
  · intro q
    unfold isIgnored
    simp [List.any_eq_true]
  · rw [clean_eq]
    simp only [initState, List.nil_append]
    exact List.mem_filter.mpr ⟨hmem, hig⟩
  · rw [clean_eq]
    simp only [initState, List.nil_append]
    exact List.count_filter hig
  · rw [clean_outcomesFor]
    rw [nonIgnored_countP_eq_zero e ignore paths p hig]
    simp [outcomesFor, successCount, failCount, skipCount, initState]
  · intro hdel
    have := (clean_deleteAttempts_mem e dryRun ignore paths p hdel).2
    rw [hig] at this
    simp at this

/-- Witness for claim C5 at a concrete run with one ignored candidate. -/
theorem ignore_filter_spec_witness :
    (["tmp", "a"] : FilePath) ∈ [(["tmp", "a"] : FilePath)] ∧
    isIgnored envAllOk [["tmp"]] ["tmp", "a"] = true ∧
    (["tmp", "a"] : FilePath) ∈
      (clean envAllOk false [["tmp"]] [["tmp", "a"]] initState).ignoredLog ∧
    outcomesFor (clean envAllOk false [["tmp"]] [["tmp", "a"]] initState)
      ["tmp", "a"] = 0 ∧
    (["tmp", "a"] : FilePath) ∉
      (clean envAllOk false [["tmp"]] [["tmp", "a"]] initState).deleteAttempts := by
  have h := ignore_filter_spec envAllOk false [["tmp"]] [["tmp", "a"]]
    ["tmp", "a"] (by decide) (by decide)
  exact ⟨by decide, by decide, h.2.1, h.2.2.2.1, h.2.2.2.2⟩

/-- Claim C6: a candidate that enters the Probe phase and measures size 0
    produces no outcome in any mode: no Success, Failure or Skip row is
    recorded for it, it is never queued for the Act phase, and no
    deletion of it is ever attempted. -/
theorem zero_size_no_outcome (e : Env) (dryRun : Bool)
    (ignore paths : List FilePath) (p : FilePath)
    (hsafe : isSafetyPath e p = false) (hex : e.pathExists p = true)
    (hzero : e.measure p = .ok 0) :
    outcomesFor (clean e dryRun ignore paths initState) p = 0 ∧
    (∀ it ∈ keptItems e ignore paths, it.path ≠ p) ∧
    p ∉ (clean e dryRun ignore paths initState).deleteAttempts := by
  have hkeep : probeKeeps e p = false := by
    simp [probeKeeps, hsafe, hex, hzero]
  refine ⟨?_, ?_, ?_⟩
  · rw [clean_outcomesFor]
    have h1 : perPathOutcomes e dryRun p = 0 := by
      unfold perPathOutcomes perPathSuccess perPathFail perPathSkip
      simp [hkeep, probeFails, probeSkips, hsafe, hex, hzero]
    rw [h1]
    simp [outcomesFor, successCount, failCount, skipCount, initState]
  · intro it hit hpath
    rcases keptItems_mem e ignore paths it hit with ⟨_, hk⟩
    rw [hpath] at hk
    rw [hkeep] at hk
    simp at hk
  · intro hdel
    have := (clean_deleteAttempts_mem e dryRun ignore paths p hdel).1
    rw [hkeep] at this
    simp at this

/-- Environment for the claim C6 witness: the path exists and measures
    0 bytes. -/
def envZeroSize : Env :=
  { canon := fun _ => none
    tmpdir := none
    pathExists := fun _ => true
    measure := fun _ => .ok 0
    removeRes := fun _ => .ok ()
    measureAfter := fun _ => .ok 0 }

/-- Witness for claim C6 at a concrete run. -/
theorem zero_size_no_outcome_witness :
    isSafetyPath envZeroSize ["z"] = false ∧
    envZeroSize.pathExists ["z"] = true ∧
    envZeroSize.measure ["z"] = .ok 0 ∧
    (outcomesFor (clean envZeroSize false [] [["z"]] initState) ["z"] = 0 ∧
      (∀ it ∈ keptItems envZeroSize [] [["z"]], it.path ≠ ["z"]) ∧
      (["z"] : FilePath) ∉
        (clean envZeroSize false [] [["z"]] initState).deleteAttempts) :=
  ⟨by decide, by decide, rfl,
    zero_size_no_outcome envZeroSize false [] [["z"]] ["z"]
      (by decide) (by decide) rfl⟩

/-- Counterexample to claim C1 as stated: the user ignore filter runs
    before the safety check (src/core/cleaner.rs lines 111-129 before
    line 149), so when the ignore list contains /private/tmp the
    candidate /private/tmp is excluded up front and the run records no
    Skip outcome at all for it — in live mode as in simulation mode —
    contradicting that it always yields a Skip outcome. -/
theorem temp_root_skip_counterexample :
    (clean envAllOk false [privateTmp] [privateTmp] initState).skipped = [] ∧
    (clean envAllOk true [privateTmp] [privateTmp] initState).skipped = [] ∧
    privateTmp ∈
      (clean envAllOk false [privateTmp] [privateTmp] initState).ignoredLog := by
  decide

/-- Claim C1 (amended): a candidate equal to /private/tmp, or to the
    active temporary directory named by TMPDIR, that is not excluded by
    the user ignore list always yields a Skip outcome with reason
    "Active system temporary directory", in both simulation and live
    mode and regardless of its measured size; when the ignore list does
    exclude it, it goes to the ignored log instead; in both cases its
    deletion is never attempted. -/
theorem temp_root_always_skip (e : Env) (dryRun : Bool)
    (ignore paths : List FilePath) (p : FilePath) (hmem : p ∈ paths)
    (hsafe : isSafetyPath e p = true) :
    (isIgnored e ignore p = false →
      (⟨p, "Active system temporary directory"⟩ : SkippedEntry) ∈
        (clean e dryRun ignore paths initState).skipped) ∧
    (isIgnored e ignore p = true →
      p ∈ (clean e dryRun ignore paths initState).ignoredLog) ∧
    p ∉ (clean e dryRun ignore paths initState).deleteAttempts := by
  refine ⟨?_, ?_, ?_⟩
  · intro hig
    rw [clean_eq]
    simp only [initState, List.nil_append]
    refine List.mem_append.mpr (.inl ?_)
    refine List.mem_flatMap.mpr ⟨p, ?_, ?_⟩
    · exact List.mem_filter.mpr ⟨hmem, by simp [hig]⟩
    · unfold probeSkips
      simp [hsafe]
  · intro hig
    rw [clean_eq]
    simp only [initState, List.nil_append]
    exact List.mem_filter.mpr ⟨hmem, hig⟩
  · intro hdel
    have := (clean_deleteAttempts_mem e dryRun ignore paths p hdel).1
    rw [probeKeeps_iff] at this
    rw [hsafe] at this
    rcases this with ⟨hfalse, -⟩
    simp at hfalse

/-- Environment whose TMPDIR is set, for the claim C1 witness. -/
def envWithTmpdir : Env :=
  { canon := fun _ => none
    tmpdir := some ["var", "folders", "zz", "T"]
    pathExists := fun _ => true
    measure := fun _ => .ok 9
    removeRes := fun _ => .ok ()
    measureAfter := fun _ => .ok 0 }

/-- Witness for the amended claim C1 at a concrete run over both safety
    paths with an empty ignore list. -/
theorem temp_root_always_skip_witness :
    (["var", "folders", "zz", "T"] : FilePath) ∈
      [privateTmp, (["var", "folders", "zz", "T"] : FilePath)] ∧
    isSafetyPath envWithTmpdir ["var", "folders", "zz", "T"] = true ∧
    ((isIgnored envWithTmpdir [] ["var", "folders", "zz", "T"] = false →
      (⟨["var", "folders", "zz", "T"],
          "Active system temporary directory"⟩ : SkippedEntry) ∈
        (clean envWithTmpdir false []
          [privateTmp, ["var", "folders", "zz", "T"]] initState).skipped) ∧
     (isIgnored envWithTmpdir [] ["var", "folders", "zz", "T"] = true →
      (["var", "folders", "zz", "T"] : FilePath) ∈
        (clean envWithTmpdir false []
          [privateTmp, ["var", "folders", "zz", "T"]] initState).ignoredLog) ∧
     (["var", "folders", "zz", "T"] : FilePath) ∉
       (clean envWithTmpdir false []
         [privateTmp, ["var", "folders", "zz", "T"]] initState).deleteAttempts) :=
  ⟨by decide, by decide,
    temp_root_always_skip envWithTmpdir false []
      [privateTmp, ["var", "folders", "zz", "T"]]
      ["var", "folders", "zz", "T"] (by decide) (by decide)⟩

theorem actSuccesses_length (e : Env) (dryRun : Bool) (it : PathToCheck) :
    (actSuccesses e dryRun it).length =
      (if dryRun then 1
       else
         match e.measureAfter it.path with
         | .ok a => if it.initial_size - a > 0 then 1 else 0
         | .error _ => 0) := by
  unfold actSuccesses
  cases dryRun <;> simp
  rcases e.measureAfter it.path with a | err <;> simp
  split <;> simp

theorem actFails_length (e : Env) (dryRun : Bool) (it : PathToCheck) :
    (actFails e dryRun it).length =
      (if dryRun then 0
       else
         match e.removeRes it.path with
         | .ok _ => 0
         | .error _ => 1) := by
  unfold actFails
  cases dryRun <;> simp
  rcases e.removeRes it.path with u | err <;> simp

theorem actSkips_length (e : Env) (dryRun : Bool) (it : PathToCheck) :
    (actSkips e dryRun it).length =
      (if dryRun then 0
       else
         match e.measureAfter it.path with
         | .ok _ => 0
         | .error _ => 1) := by
  unfold actSkips
  cases dryRun <;> simp
  rcases e.measureAfter it.path with a | err <;> simp

/-- Environment for the claim C2 counterexample: the delete call errs
    after removing only part of the content, so the re-measured size is 0. -/
def envErrDelete : Env :=
  { canon := fun _ => none
    tmpdir := none
    pathExists := fun _ => true
    measure := fun _ => .ok 5
    removeRes := fun _ => .error "io error"
    measureAfter := fun _ => .ok 0 }

/-- Counterexample to claim C2 as stated: in a live run whose delete call
    returns an error after freeing part of the content, a Failure is
    recorded and processing of the path does not stop: re-measurement
    also records a Success for the same path, so two outcomes are
    recorded where the claim requires exactly one and requires that no
    second outcome follow a delete-error Failure. -/
theorem one_outcome_counterexample :
    failCount (clean envErrDelete false [] [["a"]] initState) ["a"] = 1 ∧
    successCount (clean envErrDelete false [] [["a"]] initState) ["a"] = 1 ∧
    outcomesFor (clean envErrDelete false [] [["a"]] initState) ["a"] = 2 := by
  decide

/-- Claim C2 (amended): a non-ignored candidate occurring once that
    survives the Probe phase records exactly one Success outcome in a dry
    run; in a live run the delete is always attempted and the path
    records one Failure exactly when the delete errs — processing then
    continues with re-measurement — plus one Success exactly when
    re-measurement succeeds with a positive freed amount, plus one Skip
    exactly when re-measurement fails; it records no outcome at all
    exactly when the delete reports success and re-measurement shows
    nothing freed. -/
theorem outcome_multiplicity (e : Env) (dryRun : Bool)
    (ignore paths : List FilePath) (p : FilePath)
    (hcount : ((nonIgnored e ignore paths).countP fun q => q == p) = 1)
    (hkeep : probeKeeps e p = true) :
    successCount (clean e dryRun ignore paths initState) p =
      (if dryRun then 1
       else
         match e.measureAfter p with
         | .ok a => if measuredSize e p - a > 0 then 1 else 0
         | .error _ => 0) ∧
    failCount (clean e dryRun ignore paths initState) p =
      (if dryRun then 0
       else
         match e.removeRes p with
         | .ok _ => 0
         | .error _ => 1) ∧
    skipCount (clean e dryRun ignore paths initState) p =
      (if dryRun then 0
       else
         match e.measureAfter p with
         | .ok _ => 0
         | .error _ => 1) ∧
    (dryRun = false →
      p ∈ (clean e dryRun ignore paths initState).deleteAttempts) := by
  obtain ⟨hsafe, hex, n, hn, hn0⟩ := (probeKeeps_iff e p).mp hkeep
  have hpf : probeFails e p = [] := by
    unfold probeFails
    simp [hsafe, hex]
  have hps : probeSkips e p = [] := by
    unfold probeSkips
    simp [hsafe, hex, hn]
  refine ⟨?_, ?_, ?_, ?_⟩
  · rw [clean_successCount, hcount]
    unfold perPathSuccess
    rw [actSuccesses_length]
    simp [hkeep, successCount, initState]
  · rw [clean_failCount, hcount]
    unfold perPathFail
    rw [actFails_length, hpf]
    simp [hkeep, failCount, initState]
  · rw [clean_skipCount, hcount]
    unfold perPathSkip
    rw [actSkips_length, hps]
    simp [hkeep, skipCount, initState]
  · intro hlive
    subst hlive
    rw [clean_eq]
    simp only [initState, List.nil_append]
    have hpmem : p ∈ nonIgnored e ignore paths := by
      have hpos : 0 < ((nonIgnored e ignore paths).countP fun q => q == p) := by
        rw [hcount]; exact Nat.zero_lt_one
      rcases List.countP_pos_iff.mp hpos with ⟨q, hq, hqp⟩
      have hq2 : q = p := by simpa using hqp
      rwa [hq2] at hq
    refine List.mem_flatMap.mpr ⟨⟨p, measuredSize e p⟩, ?_, ?_⟩
    · unfold keptItems
      refine List.mem_flatMap.mpr ⟨p, hpmem, ?_⟩
      unfold probeItems
      simp [hkeep]
    · unfold actCleaning
      simp

/-- Witness for the amended claim C2 at a concrete live run with a
    failing delete. -/
theorem outcome_multiplicity_witness :
    ((nonIgnored envErrDelete [] [["a"]]).countP fun q => q == ["a"]) = 1 ∧
    probeKeeps envErrDelete ["a"] = true ∧
    (successCount (clean envErrDelete false [] [["a"]] initState) ["a"] =
        1 ∧
      failCount (clean envErrDelete false [] [["a"]] initState) ["a"] =
        1 ∧
      skipCount (clean envErrDelete false [] [["a"]] initState) ["a"] =
        0 ∧
      (["a"] : FilePath) ∈
        (clean envErrDelete false [] [["a"]] initState).deleteAttempts) := by
  have h := outcome_multiplicity envErrDelete false [] [["a"]] ["a"]
    (by decide) (by decide)
  refine ⟨by decide, by decide, ?_, ?_, ?_, h.2.2.2 rfl⟩
  · simpa using h.1
  · simpa using h.2.1
  · simpa using h.2.2.1

/-- Environment for the claim C3 counterexample: the delete call reports
    success yet re-measurement finds the size unchanged. -/
def envNoopDelete : Env :=
  { canon := fun _ => none
    tmpdir := none
    pathExists := fun _ => true
    measure := fun _ => .ok 5
    removeRes := fun _ => .ok ()
    measureAfter := fun _ => .ok 5 }

/-- Counterexample to claim C3 as stated: in a live run whose delete
    succeeds but frees nothing, the run records no Skip outcome for the
    path — the skipped table stays empty and only a warning log line is
    produced (src/core/cleaner.rs lines 246-250 push to warning_logs,
    not to the skipped table), contradicting that a Skip with reason
    "no space freed" is recorded. -/
theorem no_space_freed_skip_counterexample :
    (clean envNoopDelete false [] [["a"]] initState).deleteAttempts =
      [["a"]] ∧
    (clean envNoopDelete false [] [["a"]] initState).skipped = [] ∧
    (clean envNoopDelete false [] [["a"]] initState).successful = [] ∧
    Warning.noSpaceFreed ["a"] ∈
      (clean envNoopDelete false [] [["a"]] initState).warnings := by
  decide

/-- Claim C3 (amended): in every live Act step on a probed path whose
    delete call succeeds and whose re-measurement returns a size, the
    freed amount is the saturating difference — equal to
    max 0 (size-before − size-after), hence never negative; when it is
    positive exactly one Success carrying exactly that amount is
    recorded; when it is zero no Success is recorded, but no Skip
    either: a no-space-freed warning is logged instead. -/
theorem live_freed_accounting (e : Env) (st : RunState) (it : PathToCheck)
    (sizeAfter : Nat)
    (hok : e.removeRes it.path = .ok ())
    (hafter : e.measureAfter it.path = .ok sizeAfter) :
    ((it.initial_size - sizeAfter : Nat) : Int) =
      max 0 ((it.initial_size : Int) - (sizeAfter : Int)) ∧
    (it.initial_size - sizeAfter > 0 →
      actStep e false st it =
        { st with
            cleaning := st.cleaning ++ [it.path]
            deleteAttempts := st.deleteAttempts ++ [it.path]
            successful := st.successful ++
              [⟨it.path, it.initial_size - sizeAfter⟩]
            totalFreed := st.totalFreed + (it.initial_size - sizeAfter) }) ∧
    (it.initial_size - sizeAfter = 0 →
      actStep e false st it =
        { st with
            cleaning := st.cleaning ++ [it.path]
            deleteAttempts := st.deleteAttempts ++ [it.path]
            warnings := st.warnings ++ [.noSpaceFreed it.path] }) := by
  refine ⟨by omega, ?_, ?_⟩
  · intro hpos
    rw [actStep_eq]
    unfold actSuccesses actFails actSkips actWarns actFreed actWould
      actCleaning
    simp [hok, hafter, hpos]
  · intro hzero
    rw [actStep_eq]
    unfold actSuccesses actFails actSkips actWarns actFreed actWould
      actCleaning
    simp [hok, hafter, hzero]

/-- Witness for the amended claim C3 at a concrete no-space-freed step. -/
theorem live_freed_accounting_witness :
    envNoopDelete.removeRes ["a"] = .ok () ∧
    envNoopDelete.measureAfter ["a"] = .ok 5 ∧
    ((5 - 5 : Nat) : Int) = max 0 ((5 : Int) - (5 : Int)) ∧
    actStep envNoopDelete false initState ⟨["a"], 5⟩ =
      { initState with
          cleaning := initState.cleaning ++ [["a"]]
          deleteAttempts := initState.deleteAttempts ++ [["a"]]
          warnings := initState.warnings ++ [.noSpaceFreed ["a"]] } := by
  have h := live_freed_accounting envNoopDelete initState ⟨["a"], 5⟩ 5 rfl rfl
  exact ⟨rfl, rfl, h.1, h.2.2 (by decide)⟩

end OsxCleaner
